import Mathlib

set_option autoImplicit false

/-!
Verification development for the CarrotQuant storage and dual-track
retrieval engine (`backend/core/sql_builder.py`, `backend/core/storage.py`,
`backend/services/data.py`, `backend/services/utils/processor.py`,
`backend/models/market.py`).

Shallow embedding conventions:
* python strings are `String` where only equality matters, `List Char`
  (abbreviated `Name`) where character-level operations occur;
* `NaN` / missing numeric cells are `Option ℚ` with `none` for missing;
* a fallible python function is `Except e a` or returns an error flag;
* python dicts built by insertion are association lists in insertion order.
-/

/-! ### Schema registry: `DATA_SCHEMA` from `backend/models/market.py` -/

/-- The global field type catalog `DATA_SCHEMA` (models/market.py, lines 16-34):
column name to SQL type. -/
def DATA_SCHEMA : List (String × String) :=
  [("trade_date", "DATE"),
   ("stock_code", "VARCHAR"),
   ("stock_name", "VARCHAR"),
   ("sector_name", "VARCHAR"),
   ("concept_name", "VARCHAR"),
   ("industry_name", "VARCHAR"),
   ("open", "DOUBLE"),
   ("close", "DOUBLE"),
   ("high", "DOUBLE"),
   ("low", "DOUBLE"),
   ("volume", "DOUBLE"),
   ("amount", "DOUBLE"),
   ("amplitude", "DOUBLE"),
   ("pct_change", "DOUBLE"),
   ("change_amount", "DOUBLE"),
   ("turnover", "DOUBLE"),
   ("outstanding_share", "DOUBLE")]

/-- `col in DATA_SCHEMA` / `DATA_SCHEMA[col]` as a lookup. -/
def schemaLookup (col : String) : Option String :=
  (DATA_SCHEMA.find? (fun p => p.1 = col)).map Prod.snd

/-! ### `build_save_parquet_sql` from `backend/core/sql_builder.py` (lines 79-101)

The loop over `actual_columns` either raises `KeyError(col)` at the first
column that is neither the partition key `"year"` nor registered in
`DATA_SCHEMA`, or produces the list of `CAST` expressions
(column, SQL type).  `"year"` is special-cased to `INTEGER` without a
catalog check. -/

def buildCastExprs : List String → Except String (List (String × String))
  | [] => .ok []
  | col :: rest =>
    if col = "year" then
      (buildCastExprs rest).map (fun es => (col, "INTEGER") :: es)
    else
      match schemaLookup col with
      | none => .error col
      | some ty => (buildCastExprs rest).map (fun es => (col, ty) :: es)

/-! ### `DuckDBStorage.save_month` from `backend/core/storage.py` (lines 20-69)

Control flow of the source, projected onto the single derived partition
path `{root}/{table}/year={year}/{year}-{month:02d}.parquet`:
1. empty dataframe: warn and return (no disk mutation);
2. `build_save_parquet_sql` is called, which validates all columns and
   raises `KeyError` before any file is touched;
3. `file_path.unlink()` if the file exists;
4. `conn.execute(sql)` performs the `COPY ... TO file_path`; if it raises,
   no committed file is produced at the path (the old one is already gone).
The state we track is the file at that path (`Option Nat`, `none` =
absent) plus the propagated error. -/

inductive SaveErr where
  | schemaViolation (field : String)
  | writeFailed
deriving DecidableEq, Repr

structure SaveResult where
  error : Option SaveErr
  fileAtPath : Option Nat
deriving DecidableEq, Repr

/-- Shallow embedding of `DuckDBStorage.save_month`. `cols` are the
dataframe's columns, `rowsEmpty` is `df.empty`, `execOk` tells whether the
`conn.execute(sql)` call succeeds, `newFile` is the file the `COPY` would
produce, `oldFile` the pre-existing file at the target path. -/
def saveMonth (cols : List String) (rowsEmpty : Bool) (execOk : Bool)
    (newFile : Nat) (oldFile : Option Nat) : SaveResult :=
  if rowsEmpty then ⟨none, oldFile⟩
  else
    match buildCastExprs cols with
    | .error c => ⟨some (.schemaViolation c), oldFile⟩
    | .ok _ =>
      if execOk then ⟨none, some newFile⟩
      else ⟨some .writeFailed, none⟩

/-- If some column of `cols` is neither `"year"` nor registered, the cast
builder raises at the first such column. -/
lemma buildCastExprs_error_of_bad (cols : List String) (c : String)
    (hmem : c ∈ cols) (hy : c ≠ "year") (hns : schemaLookup c = none) :
    ∃ c', buildCastExprs cols = .error c' ∧ c' ∈ cols ∧ c' ≠ "year" ∧
      schemaLookup c' = none := by
  induction cols with
  | nil => cases hmem
  | cons col rest ih =>
    by_cases hcol : col = "year"
    · have hmem' : c ∈ rest := by
        rcases List.mem_cons.mp hmem with h | h
        · exact absurd (h ▸ hcol) hy
        · exact h
      obtain ⟨c', hc', hmemc', hyc', hnsc'⟩ := ih hmem'
      refine ⟨c', ?_, List.mem_cons_of_mem _ hmemc', hyc', hnsc'⟩
      simp [buildCastExprs, hcol, hc', Except.map]
    · cases hlk : schemaLookup col with
      | none =>
        refine ⟨col, ?_, List.mem_cons_self _ _, hcol, hlk⟩
        simp [buildCastExprs, hcol, hlk]
      | some ty =>
        have hmem' : c ∈ rest := by
          rcases List.mem_cons.mp hmem with h | h
          · rw [h] at hns; rw [hns] at hlk; cases hlk
          · exact h
        obtain ⟨c', hc', hmemc', hyc', hnsc'⟩ := ih hmem'
        refine ⟨c', ?_, List.mem_cons_of_mem _ hmemc', hyc', hnsc'⟩
        simp [buildCastExprs, hcol, hlk, hc', Except.map]

/-- Claim C1, counterexample: a non-empty row batch whose columns include
the attribute name `"year"`, which is not registered in `DATA_SCHEMA`, is
nevertheless written successfully: `save_month` reports no error and a
partition file is produced at the target path, contradicting the claim
that any unregistered attribute name causes the write to be refused. -/
theorem save_month_unregistered_year_written :
    schemaLookup "year" = none ∧
    (saveMonth ["trade_date", "stock_code", "open", "year"] false true 1 none).error
      = none ∧
    (saveMonth ["trade_date", "stock_code", "open", "year"] false true 1 none).fileAtPath
      = some 1 := by
  refine ⟨by decide, by decide, by decide⟩

/-- Claim C1 (amended): for every non-empty row batch, if any attribute
name other than the Hive partition key `"year"` is not registered in
`DATA_SCHEMA`, `save_month` fails with a `KeyError` (`SchemaViolation`)
naming an offending unregistered field, and the write is refused entirely:
the file at the target partition path is exactly what it was before the
call (no partition file produced, no subset of valid columns written). -/
theorem save_month_schema_refusal (cols : List String) (c : String)
    (execOk : Bool) (newFile : Nat) (oldFile : Option Nat)
    (hmem : c ∈ cols) (hy : c ≠ "year") (hns : schemaLookup c = none) :
    ∃ c', (saveMonth cols false execOk newFile oldFile).error
        = some (.schemaViolation c') ∧
      c' ∈ cols ∧ c' ≠ "year" ∧ schemaLookup c' = none ∧
      (saveMonth cols false execOk newFile oldFile).fileAtPath = oldFile := by
  obtain ⟨c', hc', hmemc', hyc', hnsc'⟩ :=
    buildCastExprs_error_of_bad cols c hmem hy hns
  refine ⟨c', ?_, hmemc', hyc', hnsc', ?_⟩ <;>
    simp [saveMonth, hc']

/-- Witness for the amended claim C1 at a concrete input. -/
theorem save_month_schema_refusal_witness :
    ∃ c', (saveMonth ["foo", "open"] false true 3 (some 7)).error
        = some (.schemaViolation c') ∧
      c' ∈ ["foo", "open"] ∧ c' ≠ "year" ∧ schemaLookup c' = none ∧
      (saveMonth ["foo", "open"] false true 3 (some 7)).fileAtPath = some 7 :=
  save_month_schema_refusal ["foo", "open"] "foo" true 3 (some 7)
    (by decide) (by decide) (by decide)

/-- Claim C10: `save_month` deletes any existing file at the target
partition path after validation succeeds but before executing the write,
so when the write execution itself fails the error propagates
(`WriteFailed`) and the previously existing partition file is already
gone: the on-disk state at the path is `none`, not the old file. -/
theorem save_month_delete_before_write (cols : List String)
    (exprs : List (String × String)) (newFile oldF : Nat)
    (hok : buildCastExprs cols = .ok exprs) :
    (saveMonth cols false false newFile (some oldF)).error = some .writeFailed ∧
    (saveMonth cols false false newFile (some oldF)).fileAtPath = none ∧
    (saveMonth cols false false newFile (some oldF)).fileAtPath ≠ some oldF := by
  refine ⟨?_, ?_, ?_⟩ <;> simp [saveMonth, hok]

/-- Witness for claim C10 at a concrete input. -/
theorem save_month_delete_before_write_witness :
    (saveMonth ["trade_date", "open"] false false 3 (some 7)).error
        = some .writeFailed ∧
    (saveMonth ["trade_date", "open"] false false 3 (some 7)).fileAtPath = none ∧
    (saveMonth ["trade_date", "open"] false false 3 (some 7)).fileAtPath
        ≠ some 7 :=
  save_month_delete_before_write ["trade_date", "open"]
    [("trade_date", "DATE"), ("open", "DOUBLE")] 3 7 rfl

/-! ### Matrix-track symbol recovery, `DataManager._load_matrix_track`
(`backend/services/data.py`, lines 141-153)

Python strings are embedded as `List Char` here because character-level
operations (suffix test, slicing) occur. -/

abbrev Name := List Char

/-- `field_suffix = f"_{fields[0]}"` (data.py line 146). -/
def fieldSuffix (fields : List Name) : Name :=
  '_' :: fields.headD []

/-- One step of the recovery loop (data.py lines 148-152): a pivot-result
column name `k` contributes the symbol `k[:-len(field_suffix)]` exactly
when `k.endswith(field_suffix)`. -/
def recoverSymbol (fsuffix k : Name) : Option Name :=
  if fsuffix.isSuffixOf k then some (k.take (k.length - fsuffix.length))
  else none

/-- Lexicographic comparison of names, mirroring python `sorted` on
strings. -/
def nameLe : Name → Name → Bool
  | [], _ => true
  | _ :: _, [] => false
  | a :: as, b :: bs => if a < b then true else if b < a then false else nameLe as bs

/-- `sorted(...)` over names. -/
def sortNames (l : List Name) : List Name :=
  l.insertionSort (fun a b => nameLe a b = true)

/-- First-occurrence duplicate removal: the order-irrelevant python `set`
is embedded as the deduplicated list of recovered symbols (it is sorted
immediately afterwards, so any dedup order is faithful). -/
def firstDedupAux {α : Type} [DecidableEq α] (seen : List α) : List α → List α
  | [] => []
  | a :: as =>
    if a ∈ seen then firstDedupAux seen as
    else a :: firstDedupAux (a :: seen) as

def firstDedup {α : Type} [DecidableEq α] (l : List α) : List α :=
  firstDedupAux [] l

/-- `unique_symbols = sorted(list(raw_symbols))` (data.py lines 147-153):
collect `k[:-len(field_suffix)]` for every key ending in the suffix,
deduplicate, sort. -/
def recoverSymbols (keys : List Name) (fields : List Name) : List Name :=
  sortNames (firstDedup (keys.filterMap (recoverSymbol (fieldSuffix fields))))

/-- Claim C2: for every pivot-result column name of the form
`{identifier}_{field}`, exact suffix matching on the first requested field
name recovers exactly the identifier (first conjunct, for all identifiers
and fields); in particular, on the claim's example — identifier `A_open`
with field `open` giving column `A_open_open`, next to identifier `A`
with column `A_open` — the two identifiers are recovered as `A_open` and
`A` and kept distinct (second conjunct). -/
theorem matrix_track_suffix_recovery :
    (∀ s f : Name, recoverSymbol ('_' :: f) (s ++ '_' :: f) = some s) ∧
    recoverSymbols ["t".toList, "A_open".toList, "A_open_open".toList]
        ["open".toList]
      = ["A".toList, "A_open".toList] := by
  constructor
  · intro s f
    have hsuf : ('_' :: f).isSuffixOf (s ++ '_' :: f) = true := by
      rw [List.isSuffixOf_iff_suffix]
      exact List.suffix_append s ('_' :: f)
    rw [recoverSymbol, if_pos hsuf]
    have hlen : (s ++ '_' :: f).length - ('_' :: f).length = s.length := by
      simp [List.length_append]
    rw [hlen, List.take_left]
  · decide


/-! ### Partition enumeration, `DataManager.load_market_data`
(`backend/services/data.py`, lines 102-116)

For a partitioned table the directory entries starting with `"year="` are
parsed (`int(d.split("=")[1])`, entries that fail to parse are skipped by
the bare `except: continue`), filtered to `start_date.year <= y <=
end_date.year`; if none remain, `DataNotFoundError(t_name, start_date,
end_date)` is raised, else the glob `year={y}/*.parquet` is read for
exactly the selected years (represented below by the year list itself). -/

/-- Python `int` on the digit strings produced by `f"year={year}"`:
defined on non-empty all-digit strings, undefined otherwise (the source's
`except: continue` skips the undefined cases). -/
def pyInt? (cs : Name) : Option Nat :=
  if cs ≠ [] ∧ cs.all Char.isDigit then
    some (cs.foldl (fun acc c => acc * 10 + (c.toNat - 48)) 0)
  else none

/-- Parse a directory entry: keep it when it starts with `"year="`, then
take `d.split("=")[1]`, i.e. the segment after the first `=`, up to the
next `=`. -/
def parseYearDir (d : Name) : Option Nat :=
  if ("year=".toList).isPrefixOf d then
    pyInt? ((d.drop 5).takeWhile (fun c => c ≠ '='))
  else none

/-- The year-selection loop (data.py lines 105-112). -/
def selectYears (dirs : List Name) (startYear endYear : Nat) : List Nat :=
  dirs.filterMap (fun d =>
    (parseYearDir d).bind (fun y =>
      if startYear ≤ y ∧ y ≤ endYear then some y else none))

/-- A python `datetime.date`. -/
structure PyDate where
  year : Nat
  month : Nat
  day : Nat
deriving DecidableEq, Repr

/-- `DataNotFoundError(table_name, start_date, end_date)` from
`backend/core/exceptions.py` (lines 4-14). -/
inductive LoadErr where
  | dataNotFound (table : String) (startD endD : Option PyDate)
deriving DecidableEq, Repr

/-- Partition-mode path resolution in `load_market_data` (data.py lines
102-116): the selected years, or `DataNotFoundError` when none overlap. -/
def loadPartitionYears (table : String) (dirs : List Name) (sd ed : PyDate) :
    Except LoadErr (List Nat) :=
  let years := selectYears dirs sd.year ed.year
  if years = [] then .error (.dataNotFound table (some sd) (some ed))
  else .ok years

/-- Claim C3: a year is enumerated and read iff some `year=` directory
entry parses to it and it lies in `[start_date.year, end_date.year]`
(first conjunct); on the claim's example, the range 2023-06-01..2024-02-01
over on-disk partitions 2022..2025 reads exactly `year=2023` and
`year=2024` (second conjunct); and when no year partition overlaps, the
call fails with `DataNotFound` carrying the table name, start date and end
date (third conjunct). -/
theorem load_market_data_partition_scoping :
    (∀ (dirs : List Name) (sy ey y : Nat),
      y ∈ selectYears dirs sy ey ↔
        ∃ d ∈ dirs, parseYearDir d = some y ∧ sy ≤ y ∧ y ≤ ey) ∧
    loadPartitionYears "cn_stock_em_daily_adj"
        ["year=2022".toList, "year=2023".toList,
         "year=2024".toList, "year=2025".toList]
        ⟨2023, 6, 1⟩ ⟨2024, 2, 1⟩ = .ok [2023, 2024] ∧
    (∀ (table : String) (dirs : List Name) (sd ed : PyDate),
      selectYears dirs sd.year ed.year = [] →
        loadPartitionYears table dirs sd ed
          = .error (.dataNotFound table (some sd) (some ed))) := by
  refine ⟨?_, by rfl, ?_⟩
  · intro dirs sy ey y
    rw [selectYears, List.mem_filterMap]
    constructor
    · rintro ⟨d, hd, hf⟩
      cases hp : parseYearDir d with
      | none => rw [hp] at hf; cases hf
      | some y' =>
        rw [hp, Option.some_bind] at hf
        by_cases hr : sy ≤ y' ∧ y' ≤ ey
        · rw [if_pos hr] at hf
          cases hf
          exact ⟨d, hd, hp, hr.1, hr.2⟩
        · rw [if_neg hr] at hf; cases hf
    · rintro ⟨d, hd, hp, h1, h2⟩
      exact ⟨d, hd, by rw [hp, Option.some_bind, if_pos ⟨h1, h2⟩]⟩
  · intro table dirs sd ed h
    simp [loadPartitionYears, h]

/-- Witness for claim C3's conditional part at a concrete input: partitions
exist on disk but none overlaps the requested range. -/
theorem load_market_data_partition_scoping_witness :
    loadPartitionYears "stock_sector_map" ["year=2020".toList]
        ⟨2023, 1, 1⟩ ⟨2024, 12, 31⟩
      = .error (.dataNotFound "stock_sector_map"
          (some ⟨2023, 1, 1⟩) (some ⟨2024, 12, 31⟩)) :=
  load_market_data_partition_scoping.2.2 "stock_sector_map"
    ["year=2020".toList] ⟨2023, 1, 1⟩ ⟨2024, 12, 31⟩ (by decide)


/-! ### 2-D fill processors, `backend/services/utils/processor.py`

`ffill_2d` (lines 3-15) computes, per cell, `idx = np.where(~mask,
np.arange(n)[:, None], 0)` then `np.maximum.accumulate(idx, axis=0)` and
gathers `arr[idx, col_idx]`.  The accumulate acts independently per
column, so a matrix is embedded as its list of columns, each column a
list of cells along the row (date) axis, with `none` for `NaN`.
`np.maximum.accumulate` at row `i` is by definition the maximum of the
keys at rows `0..i`; the key at row `0` is `0` in both branches of the
`np.where`, so folding `max` from `0` is the same value. -/

/-- The `np.where(~mask, row-index, 0)` key of row `j` in one column. -/
def ffillKey (col : List (Option ℚ)) (j : Nat) : Nat :=
  if (col.getD j none).isSome then j else 0

/-- `np.maximum.accumulate` of the keys, at row `i`. -/
def ffillIdx (col : List (Option ℚ)) (i : Nat) : Nat :=
  ((List.range (i + 1)).map (ffillKey col)).foldl max 0

/-- `arr[idx, col_idx]` for one column: gather the cell at the
accumulated index, per row. -/
def ffillCol (col : List (Option ℚ)) : List (Option ℚ) :=
  (List.range col.length).map (fun i => col.getD (ffillIdx col i) none)

/-- `ffill_2d` on the column-list representation of the matrix. -/
def ffill2d (m : List (List (Option ℚ))) : List (List (Option ℚ)) :=
  m.map ffillCol

/-- `zero_fill` (processor.py lines 17-21): `np.nan_to_num(arr, nan=0.0)`
applied per cell. -/
def zeroFillCell : Option ℚ → Option ℚ
  | none => some 0
  | some x => some x

def zeroFillCol (col : List (Option ℚ)) : List (Option ℚ) :=
  col.map zeroFillCell

def zeroFill2d (m : List (List (Option ℚ))) : List (List (Option ℚ)) :=
  m.map zeroFillCol

/-- Spec-side closed form: the index of the greatest row `j ≤ i` whose
cell is non-missing, if any. -/
def lastObsIdx (col : List (Option ℚ)) (i : Nat) : Option Nat :=
  ((List.range (i + 1)).reverse).find? (fun j => (col.getD j none).isSome)

/-- Spec-side closed form: the value at the greatest non-missing row
`j ≤ i`, else missing. -/
def lastObs (col : List (Option ℚ)) (i : Nat) : Option ℚ :=
  match lastObsIdx col i with
  | some j => col.getD j none
  | none => none

lemma ffillKey_zero (col : List (Option ℚ)) : ffillKey col 0 = 0 := by
  unfold ffillKey; split <;> rfl

lemma ffillIdx_zero (col : List (Option ℚ)) : ffillIdx col 0 = 0 := by
  have h1 : List.range 1 = [0] := rfl
  simp [ffillIdx, h1, ffillKey_zero]

lemma ffillIdx_succ (col : List (Option ℚ)) (i : Nat) :
    ffillIdx col (i + 1) = max (ffillIdx col i) (ffillKey col (i + 1)) := by
  rw [ffillIdx, ffillIdx, List.range_succ]
  simp [List.foldl_append]

lemma lastObsIdx_zero (col : List (Option ℚ)) :
    lastObsIdx col 0 = if (col.getD 0 none).isSome then some 0 else none := by
  have h1 : List.range 1 = [0] := rfl
  by_cases h : (col.getD 0 none).isSome
  · rw [lastObsIdx, h1, if_pos h]
    exact List.find?_cons_of_pos _ h
  · rw [lastObsIdx, h1, if_neg h]
    exact List.find?_cons_of_neg _ h

lemma lastObsIdx_succ (col : List (Option ℚ)) (i : Nat) :
    lastObsIdx col (i + 1)
      = if (col.getD (i + 1) none).isSome then some (i + 1)
        else lastObsIdx col i := by
  rw [lastObsIdx, List.range_succ, List.reverse_append]
  by_cases h : (col.getD (i + 1) none).isSome
  · rw [if_pos h]
    exact List.find?_cons_of_pos _ h
  · rw [if_neg h]
    exact List.find?_cons_of_neg _ h

lemma lastObsIdx_le (col : List (Option ℚ)) (i j : Nat)
    (h : lastObsIdx col i = some j) : j ≤ i := by
  have hm := List.mem_of_find?_eq_some h
  rw [List.mem_reverse, List.mem_range] at hm
  omega

lemma lastObsIdx_isSome (col : List (Option ℚ)) (i j : Nat)
    (h : lastObsIdx col i = some j) : (col.getD j none).isSome := by
  rw [lastObsIdx] at h
  exact List.find?_some (p := fun j => (col.getD j none).isSome) h

lemma lastObsIdx_eq_none_iff (col : List (Option ℚ)) (i : Nat) :
    lastObsIdx col i = none ↔ ∀ j ≤ i, col.getD j none = none := by
  rw [lastObsIdx, List.find?_eq_none]
  constructor
  · intro h j hj
    have := h j (by rw [List.mem_reverse, List.mem_range]; omega)
    simpa [Option.not_isSome_iff_eq_none] using this
  · intro h x hx
    rw [List.mem_reverse, List.mem_range] at hx
    have hx' := h x (by omega)
    simp [List.getD_eq_getElem?_getD] at hx'
    simp [hx']

lemma lastObsIdx_self (col : List (Option ℚ)) (i : Nat)
    (h : (col.getD i none).isSome) : lastObsIdx col i = some i := by
  cases i with
  | zero => rw [lastObsIdx_zero, if_pos h]
  | succ n => rw [lastObsIdx_succ, if_pos h]

/-- The accumulated gather index is exactly the spec's greatest
non-missing row index, defaulting to `0`. -/
lemma ffillIdx_eq (col : List (Option ℚ)) (i : Nat) :
    ffillIdx col i = (lastObsIdx col i).getD 0 := by
  induction i with
  | zero =>
    rw [ffillIdx_zero, lastObsIdx_zero]
    split <;> rfl
  | succ i ih =>
    rw [ffillIdx_succ, lastObsIdx_succ, ih]
    by_cases h : (col.getD (i + 1) none).isSome
    · rw [if_pos h]
      unfold ffillKey
      rw [if_pos h]
      cases hL : lastObsIdx col i with
      | none => simp
      | some j =>
        have := lastObsIdx_le col i j hL
        simp only [Option.getD_some]
        omega
    · rw [if_neg h]
      unfold ffillKey
      rw [if_neg h]
      simp

lemma length_ffillCol (col : List (Option ℚ)) :
    (ffillCol col).length = col.length := by
  simp [ffillCol]

lemma ffillCol_getD (col : List (Option ℚ)) (i : Nat) (h : i < col.length) :
    (ffillCol col).getD i none = col.getD (ffillIdx col i) none := by
  rw [ffillCol, List.getD_eq_getElem?_getD]
  simp [List.getElem?_map, List.getElem?_range, h]

/-- The closed form of `ffill_2d` per column: the value at row `i` is the
value at the greatest non-missing row `j ≤ i`, else missing. -/
lemma ffillCol_getD_lastObs (col : List (Option ℚ)) (i : Nat)
    (h : i < col.length) : (ffillCol col).getD i none = lastObs col i := by
  rw [ffillCol_getD col i h, ffillIdx_eq, lastObs]
  cases hL : lastObsIdx col i with
  | some j => simp
  | none =>
    simp only [Option.getD_none]
    exact (lastObsIdx_eq_none_iff col i).mp hL 0 (Nat.zero_le i)

lemma ffillCol_all_none (col : List (Option ℚ))
    (h : ∀ x ∈ col, x = none) : ffillCol col = col := by
  apply List.ext_getElem (length_ffillCol col)
  intro i h1 h2
  rw [← List.getD_eq_getElem _ none h1, ← List.getD_eq_getElem _ none h2]
  rw [ffillCol_getD_lastObs col i h2, lastObs]
  have hnone : lastObsIdx col i = none := by
    rw [lastObsIdx_eq_none_iff]
    intro j hj
    rcases Nat.lt_or_ge j col.length with hlt | hge
    · exact h _ (List.getD_eq_getElem col none hlt ▸ List.getElem_mem hlt)
    · exact List.getD_eq_default _ _ hge
  rw [hnone]
  exact (h _ (List.getD_eq_getElem col none h2 ▸ List.getElem_mem h2)).symm

lemma lastObs_ffillCol (col : List (Option ℚ)) (i : Nat)
    (h : i < col.length) : lastObs (ffillCol col) i = lastObs col i := by
  cases hL : lastObsIdx col i with
  | some j =>
    have hfi : (ffillCol col).getD i none = lastObs col i :=
      ffillCol_getD_lastObs col i h
    have hsome : ((ffillCol col).getD i none).isSome := by
      rw [hfi, lastObs, hL]
      exact lastObsIdx_isSome col i j hL
    rw [lastObs, lastObsIdx_self _ i hsome]
    simpa using hfi
  | none =>
    have hcol := (lastObsIdx_eq_none_iff col i).mp hL
    have hf : ∀ j ≤ i, (ffillCol col).getD j none = none := by
      intro j hj
      have hjlen : j < col.length := lt_of_le_of_lt hj h
      rw [ffillCol_getD_lastObs col j hjlen, lastObs,
        (lastObsIdx_eq_none_iff col j).mpr (fun k hk => hcol k (le_trans hk hj))]
    rw [lastObs, lastObs, hL, (lastObsIdx_eq_none_iff _ i).mpr hf]

lemma ffillCol_idem (col : List (Option ℚ)) :
    ffillCol (ffillCol col) = ffillCol col := by
  apply List.ext_getElem (by simp [length_ffillCol])
  intro i h1 h2
  have hi : i < col.length := by rwa [length_ffillCol] at h2
  rw [← List.getD_eq_getElem _ none h1, ← List.getD_eq_getElem _ none h2]
  rw [ffillCol_getD_lastObs _ i h2, lastObs_ffillCol col i hi,
    ffillCol_getD_lastObs col i hi]

lemma zeroFillCell_idem (v : Option ℚ) :
    zeroFillCell (zeroFillCell v) = zeroFillCell v := by
  cases v <;> rfl

/-- Claim C4: `ffill_2d` satisfies the closed-form rule per column — the
value at row `i` equals the value at the greatest row index `j ≤ i` that
is non-missing, else remains missing (first conjunct); it is a total
function preserving any input shape (second conjunct); and a column that
is entirely missing remains entirely missing (third conjunct). -/
theorem ffill_2d_closed_form :
    (∀ (col : List (Option ℚ)) (i : Nat), i < col.length →
      (ffillCol col).getD i none = lastObs col i) ∧
    (∀ m : List (List (Option ℚ)),
      (ffill2d m).map List.length = m.map List.length) ∧
    (∀ col : List (Option ℚ), (∀ x ∈ col, x = none) → ffillCol col = col) := by
  refine ⟨ffillCol_getD_lastObs, ?_, ffillCol_all_none⟩
  intro m
  simp [ffill2d, List.map_map, Function.comp, length_ffillCol]

/-- Witness for claim C4 at concrete inputs: a column with a gap is
filled from the last preceding observation, and an all-missing column is
left untouched. -/
theorem ffill_2d_closed_form_witness :
    (ffillCol [some (5 : ℚ), none, some 7]).getD 1 none
        = lastObs [some (5 : ℚ), none, some 7] 1 ∧
    ffillCol [none, (none : Option ℚ)] = [none, none] :=
  ⟨ffill_2d_closed_form.1 [some (5 : ℚ), none, some 7] 1 (by decide),
   ffill_2d_closed_form.2.2 [none, (none : Option ℚ)] (by decide)⟩

/-- Claim C5: both fill processors are idempotent —
`ffill_2d (ffill_2d M) = ffill_2d M` and
`zero_fill (zero_fill M) = zero_fill M` for every matrix `M`. -/
theorem fill_idempotence :
    ∀ m : List (List (Option ℚ)),
      ffill2d (ffill2d m) = ffill2d m ∧
      zeroFill2d (zeroFill2d m) = zeroFill2d m := by
  intro m
  constructor
  · simp [ffill2d, List.map_map, Function.comp, ffillCol_idem]
  · simp [zeroFill2d, zeroFillCol, List.map_map, Function.comp,
      zeroFillCell_idem]


/-! ### Mapping track, `DataManager._load_mapping_track`
(`backend/services/data.py`, lines 182-238)

The file carries an unresolved git merge conflict inside this function.
The `Updated upstream` fragment (lines 186-210) builds a cardinality
auto-detected `mapping` dict, but it is dead code: its query call
`build_select_sql` (line 190) is defined nowhere in the codebase, and the
function's common tail (lines 230-238) lies outside the conflict markers,
so under either resolution the function queries, converts the result to
`records` (one dict per row via `fetch_arrow_table().to_pylist()`) and
returns `TableData(name=t_name, symbols=all_symbols, data=records)`,
discarding any `mapping`.  The surviving tail is embedded below. -/

/-- `mapping[k]` / `dict.get(k)`: value of the first entry with key `k`
in a python dict represented as an association list. -/
def pyLookup {K V : Type} [DecidableEq K] (m : List (K × V)) (k : K) : Option V :=
  (m.find? (fun p => decide (p.1 = k))).map Prod.snd

/-- One row dict of `fetch_arrow_table().to_pylist()`: field name to
value. -/
abbrev PyRecord := List (String × String)

/-- Shallow embedding of the surviving return path of
`_load_mapping_track` (data.py lines 230-238): `all_symbols` collects
`r.get(id_col)` per record when `id_col` is configured, else `[]`, and
the returned `TableData.data` is the `records` list itself.  The result
pair is (`symbols`, `data`). -/
def loadMappingTrackTail (idCol : Option String) (records : List PyRecord) :
    List (Option String) × List PyRecord :=
  (match idCol with
   | some c => records.map (fun r => pyLookup r c)
   | none => [],
   records)

/-- Claim C6, the code evaluated at the failing input: the mapping
track's returned data is always the raw `records` row list, never a
cardinality auto-detected structure (first conjunct); in particular, for
the claim's rows `[(k1,v1),(k1,v2),(k2,v3)]` it returns the three row
dicts unchanged in result order, not the grouped one-to-many structure
`{k1: [v1, v2], k2: [v3]}` (second conjunct). -/
theorem mapping_track_returns_records :
    (∀ (idCol : Option String) (records : List PyRecord),
      (loadMappingTrackTail idCol records).2 = records) ∧
    (loadMappingTrackTail (some ("stock_code"))
        [[("stock_code", "k1"), ("sector_name", "v1")],
         [("stock_code", "k1"), ("sector_name", "v2")],
         [("stock_code", "k2"), ("sector_name", "v3")]]).2
      = [[("stock_code", "k1"), ("sector_name", "v1")],
         [("stock_code", "k1"), ("sector_name", "v2")],
         [("stock_code", "k2"), ("sector_name", "v3")]] :=
  ⟨fun _ _ => rfl, rfl⟩


/-! ### Matrix track assembly and the empty pivot result
(`backend/services/data.py`, lines 128-180)

`fetchnumpy` yields a dict from column name to value array; it is embedded
as an association list from `Name` to cell list.  Matrix cells are
`Option ℚ` (`none` = `NaN`); the `t` column holds date labels, which are
carried opaquely in the same cell type (the code only copies them into
`timeline` and takes their count).  The quote-stripping
`k.replace('"', '')` removes every double-quote character (code point 34).
The matrix `mat` of shape (time, symbol) is represented by its list of
symbol-columns, matching the columnwise `mat[:, s_idx] = val` writes and
the columnwise fills. -/

structure MatrixTableData where
  name : Name
  timeline : List (Option ℚ)
  symbols : List Name
  data : List (List (Option ℚ))
deriving DecidableEq, Repr

/-- Per-field matrix build (data.py lines 160-169): for each recovered
symbol, copy the column `f"{s_val}_{f}"` if present, else leave the
all-`NaN` column. -/
def buildFieldMatrix (cleanRes : List (Name × List (Option ℚ)))
    (nRows : Nat) (uniqueSymbols : List Name) (f : Name) :
    List (List (Option ℚ)) :=
  uniqueSymbols.map (fun s =>
    match pyLookup cleanRes (s ++ '_' :: f) with
    | some col => col
    | none => List.replicate nRows none)

/-- Shallow embedding of `_load_matrix_track` after the SQL execution
(data.py lines 138-180): early return of an empty dict when the `t`
column is absent or empty, else key cleaning, symbol recovery, per-field
matrix building, fill dispatch and `TableData` assembly under
`{table}_{field}` names. -/
def loadMatrixTrack (tName : Name) (fields ffillCols zerofillCols : List Name)
    (res : List (Name × List (Option ℚ))) : List (Name × MatrixTableData) :=
  match pyLookup res ['t'] with
  | none => []
  | some tvals =>
    if tvals.isEmpty then []
    else
      let cleanRes := res.map (fun p => (p.1.filter (fun c => c.toNat ≠ 34), p.2))
      let uniqueSymbols := recoverSymbols (cleanRes.map Prod.fst) fields
      fields.map (fun f =>
        let mat := buildFieldMatrix cleanRes tvals.length uniqueSymbols f
        let filled :=
          if f ∈ zerofillCols then zeroFill2d mat
          else if f ∈ ffillCols then ffill2d mat
          else mat
        (tName ++ '_' :: f,
         ⟨tName ++ '_' :: f, tvals, uniqueSymbols, filled⟩))

/-- The partition-enumeration step followed by the matrix track, as in
`load_market_data` (data.py lines 102-121): `DataNotFoundError` can only
arise from the year-partition check; the pivot result `res` is consumed
afterwards. -/
def loadTableMatrix (table : String) (dirs : List Name) (sd ed : PyDate)
    (fields ffillCols zerofillCols : List Name)
    (res : List (Name × List (Option ℚ))) :
    Except LoadErr (List (Name × MatrixTableData)) :=
  match loadPartitionYears table dirs sd ed with
  | .error e => .error e
  | .ok _ => .ok (loadMatrixTrack table.toList fields ffillCols zerofillCols res)

/-- Claim C7: when year partitions overlap the range but the pivot query
matches zero rows (`t` column absent or empty), the matrix track yields
an empty `TableData` set and no exception (first conjunct); an error —
`DataNotFound` — is raised exactly when no year partition overlaps the
requested years, regardless of the pivot result (second conjunct). -/
theorem matrix_track_empty_result
    (table : String) (dirs : List Name) (sd ed : PyDate)
    (fields fc zc : List Name) (res : List (Name × List (Option ℚ)))
    (hyears : selectYears dirs sd.year ed.year ≠ [])
    (hempty : pyLookup res ['t'] = none ∨ pyLookup res ['t'] = some []) :
    loadTableMatrix table dirs sd ed fields fc zc res = .ok [] ∧
    (∀ (dirs' : List Name) (res' : List (Name × List (Option ℚ))),
      (∃ e, loadTableMatrix table dirs' sd ed fields fc zc res' = .error e)
        ↔ selectYears dirs' sd.year ed.year = []) := by
  constructor
  · have hok : loadPartitionYears table dirs sd ed
        = .ok (selectYears dirs sd.year ed.year) := by
      rw [loadPartitionYears]
      simp [hyears]
    rw [loadTableMatrix, hok]
    rcases hempty with h | h <;> simp [loadMatrixTrack, h]
  · intro dirs' res'
    constructor
    · rintro ⟨e, he⟩
      by_contra hne
      rw [loadTableMatrix, loadPartitionYears] at he
      simp [hne] at he
    · intro h0
      refine ⟨.dataNotFound table (some sd) (some ed), ?_⟩
      rw [loadTableMatrix, loadPartitionYears]
      simp [h0]

/-- Witness for claim C7 at a concrete input: partitions overlap, the
pivot result has a header-only `t` column, and the load succeeds with an
empty result set. -/
theorem matrix_track_empty_result_witness :
    loadTableMatrix "cn_stock_em_daily_adj" ["year=2023".toList]
        ⟨2023, 1, 1⟩ ⟨2023, 12, 31⟩ ["open".toList] [] [] [(['t'], [])]
      = .ok [] :=
  (matrix_track_empty_result "cn_stock_em_daily_adj" ["year=2023".toList]
    ⟨2023, 1, 1⟩ ⟨2023, 12, 31⟩ ["open".toList] [] [] [(['t'], [])]
    (by decide) (Or.inr (by decide))).1


/-! ### Metadata audit, `build_metadata_sql` and
`DataManager.get_storage_metadata`
(`backend/core/sql_builder.py` lines 53-75; `backend/services/data.py`
lines 28-74)

`get_storage_metadata` carries an unresolved git merge conflict; the
registry-driven `is_timeseries` dispatch cited by the spec is the
`Stashed changes` side (data.py lines 56-59), embedded here.  A stored
table is abstracted to its optional `trade_date` column (dates as `Nat`,
`none` when the column is absent) and its row count; the glob-level scan
`read_parquet(... /**/*.parquet)` is the denotation over that table. -/

structure StoredTable where
  dateCol : Option (List Nat)
  nRows : Nat
deriving DecidableEq, Repr

inductive SqlErr where
  | binderError
deriving DecidableEq, Repr

/-- Denotation of the query built by `build_metadata_sql`:
`is_timeseries` selects `MIN(trade_date), MAX(trade_date)` — a binder
error when the column does not exist — or literal `NULL, NULL`; the third
component is `COUNT(*)`.  SQL `MIN`/`MAX` over zero rows are `NULL`. -/
def runMetadataSql (isTimeseries : Bool) (t : StoredTable) :
    Except SqlErr (Option Nat × Option Nat × Nat) :=
  if isTimeseries then
    match t.dateCol with
    | none => .error .binderError
    | some ds => .ok (ds.min?, ds.max?, t.nRows)
  else .ok (none, none, t.nRows)

structure MetaEntry where
  startD : Option Nat
  endD : Option Nat
  rowCount : Nat
  storageType : String
deriving DecidableEq, Repr

/-- One iteration of the audit loop (data.py lines 36-73, stashed side):
skip a table whose path is absent; compute `is_timeseries` from the
registry entry; run the metadata query, skipping the table on any
exception; keep the entry only when `row_count > 0`. -/
def auditTable (loadMode storageType : String) (onDisk : Bool)
    (t : StoredTable) : Option MetaEntry :=
  if onDisk then
    let isTs : Bool := loadMode == "matrix" || storageType == "partition"
    match runMetadataSql isTs t with
    | .error _ => none
    | .ok (s, e, c) => if 0 < c then some ⟨s, e, c, storageType⟩ else none
  else none

/-- Claim C8: the metadata query of a registry-declared time-bearing
table (matrix/partition, which carries `trade_date`) returns
`(min_date, max_date, row_count)` (second conjunct); for a snapshot
mapping table with no date column it returns `(null, null, row_count)`,
and such a table with data on disk still appears in the audit result
rather than being dropped (first conjunct). -/
theorem metadata_audit_no_date_column :
    (∀ t : StoredTable, t.dateCol = none → 0 < t.nRows →
      auditTable "mapping" "snapshot" true t
        = some ⟨none, none, t.nRows, "snapshot"⟩) ∧
    (∀ (t : StoredTable) (ds : List Nat), t.dateCol = some ds → 0 < t.nRows →
      auditTable "matrix" "partition" true t
        = some ⟨ds.min?, ds.max?, t.nRows, "partition"⟩) := by
  constructor
  · intro t hdate hrows
    simp [auditTable, runMetadataSql, hdate, hrows]
  · intro t ds hdate hrows
    simp [auditTable, runMetadataSql, hdate, hrows]

/-- Witness for claim C8 at concrete inputs: a dateless snapshot table
with 5 rows is audited as `(null, null, 5)`, a dated partition table as
`(min, max, count)`. -/
theorem metadata_audit_no_date_column_witness :
    auditTable "mapping" "snapshot" true ⟨none, 5⟩
      = some ⟨none, none, 5, "snapshot"⟩ ∧
    auditTable "matrix" "partition" true ⟨some [3, 1, 2], 3⟩
      = some ⟨([3, 1, 2] : List Nat).min?, ([3, 1, 2] : List Nat).max?, 3,
          "partition"⟩ :=
  ⟨metadata_audit_no_date_column.1 ⟨none, 5⟩ rfl (by decide),
   metadata_audit_no_date_column.2 ⟨some [3, 1, 2], 3⟩ [3, 1, 2] rfl
     (by decide)⟩


/-! ### `TableData.__getitem__`, `backend/models/market.py` (lines 143-180)

`date_to_idx` / `symbol_to_idx` are dict comprehensions
`{d: i for i, d in enumerate(timeline)}`, so a repeated label keeps its
last index; `.get` returns `None` for an absent label.  A python key is
either a tuple of labels or a scalar label.  The data is an `np.ndarray`
matrix (rows indexed by time, columns by symbol) or a dict; the dict
branch of `__getitem__` is taken first when `self.data` is a dict. -/

inductive PyKey where
  | tup (ls : List String)
  | scalar (l : String)
deriving DecidableEq, Repr

/-- Lookup in the index dict built by
`{d: i for i, d in enumerate(ls)}`: the last index of the label. -/
def pyEnumIdx (ls : List String) (x : String) : Option Nat :=
  ls.enum.foldl (fun acc p => if p.2 = x then some p.1 else acc) none

inductive TDContent where
  | matrix (m : List (List (Option ℚ)))
  | mapping (d : List (String × String))
deriving DecidableEq, Repr

structure TableDataPy where
  name : String
  timeline : List String
  symbols : List String
  content : TDContent
deriving DecidableEq, Repr

inductive ItemResult where
  | num (v : Option ℚ)
  | fromDict (v : Option String)
  | indexError
deriving DecidableEq, Repr

/-- Shallow embedding of `TableData.__getitem__`: the dict branch
returns `self.data.get(key)`; the matrix branch handles exactly the
two-element tuple keys, returning `np.nan` when either label is absent;
every other key raises `IndexError`. -/
def getItem (td : TableDataPy) (key : PyKey) : ItemResult :=
  match td.content with
  | .mapping d =>
    .fromDict (match key with
      | .scalar l => pyLookup d l
      | .tup _ => none)
  | .matrix m =>
    match key with
    | .tup [t, s] =>
      match pyEnumIdx td.timeline t, pyEnumIdx td.symbols s with
      | some ti, some si => .num ((m.getD ti []).getD si none)
      | _, _ => .num none
    | _ => .indexError

lemma foldl_lastIdx_eq_none_iff (l : List (Nat × String)) (x : String)
    (acc : Option Nat) :
    l.foldl (fun acc p => if p.2 = x then some p.1 else acc) acc = none
      ↔ acc = none ∧ ∀ p ∈ l, p.2 ≠ x := by
  induction l generalizing acc with
  | nil => simp
  | cons a as ih =>
    rw [List.foldl_cons, ih]
    by_cases h : a.2 = x <;> simp [h]

lemma pyEnumIdx_eq_none_of_not_mem (ls : List String) (x : String)
    (h : x ∉ ls) : pyEnumIdx ls x = none := by
  rw [pyEnumIdx, foldl_lastIdx_eq_none_iff]
  refine ⟨rfl, ?_⟩
  intro p hp heq
  apply h
  rw [List.enum_eq_zip_range] at hp
  exact heq ▸ (List.of_mem_zip hp).2

/-- Claim C9: on a matrix-shaped `TableData`, access with a two-element
(date label, symbol label) key is total — when either label is absent
from the timeline or symbol index the lookup returns `NaN` instead of
raising (first conjunct) — and `IndexError` is raised exactly when the
key is not a two-element tuple (second conjunct). -/
theorem table_data_getitem_total (td : TableDataPy)
    (m : List (List (Option ℚ))) (hm : td.content = .matrix m) :
    (∀ t s : String, (t ∉ td.timeline ∨ s ∉ td.symbols) →
      getItem td (.tup [t, s]) = .num none) ∧
    (∀ key : PyKey,
      getItem td key = .indexError ↔ ∀ t s : String, key ≠ .tup [t, s]) := by
  constructor
  · intro t s h
    rcases h with ht | hs
    · simp [getItem, hm, pyEnumIdx_eq_none_of_not_mem td.timeline t ht]
    · have hnone := pyEnumIdx_eq_none_of_not_mem td.symbols s hs
      cases hti : pyEnumIdx td.timeline t <;>
        simp [getItem, hm, hnone, hti]
  · intro key
    cases key with
    | scalar l => simp [getItem, hm]
    | tup ls =>
      match ls with
      | [] => simp [getItem, hm]
      | [a] => simp [getItem, hm]
      | [a, b] =>
        constructor
        · intro hcontra
          cases hti : pyEnumIdx td.timeline a <;>
            cases hsi : pyEnumIdx td.symbols b <;>
              simp [getItem, hm, hti, hsi] at hcontra
        · intro hall
          exact absurd rfl (hall a b)
      | a :: b :: c :: rest => simp [getItem, hm]

/-- Witness for claim C9 at a concrete input: an absent date label gives
`NaN`, and a scalar key on a matrix raises. -/
theorem table_data_getitem_total_witness :
    getItem ⟨"cn_stock_em_daily_adj_open", ["2024-01-02"], ["000001"],
        .matrix [[some 1]]⟩ (.tup ["2024-01-03", "000001"]) = .num none ∧
    (getItem ⟨"cn_stock_em_daily_adj_open", ["2024-01-02"], ["000001"],
        .matrix [[some 1]]⟩ (.scalar "000001") = .indexError
      ↔ ∀ t s : String, (PyKey.scalar "000001") ≠ .tup [t, s]) :=
  ⟨(table_data_getitem_total _ [[some 1]] rfl).1 "2024-01-03" "000001"
      (Or.inl (by decide)),
   (table_data_getitem_total ⟨"cn_stock_em_daily_adj_open", ["2024-01-02"],
      ["000001"], .matrix [[some 1]]⟩ [[some 1]] rfl).2 (.scalar "000001")⟩

